import Mathlib

/-!
Verification of the tag utilities (`pyaws/tags/tag_utils.py`) and the console
message helper (`pyaws/utils/usermessage.py`) of the `python-utils` repository,
via a shallow embedding of the Python code into Lean.

Conventions of the embedding:
* a Python tag dict `{'Key': k, 'Value': v}` is the structure `Tag`;
* Python exceptions are made explicit (`Except`, `Option`, or an explicit
  result constructor), never swallowed;
* external effects (the boto3 client, `print`, the logger) are parameters of
  the embedded functions: the caller supplies their behaviour, including the
  possibility that the external call raises;
* side effects on stdout and on the logger are returned as traces.
-/

/-- A tag: the Python dict `{'Key': ..., 'Value': ...}`. -/
structure Tag where
  key : String
  value : String
deriving DecidableEq, Repr

/-! ## `exclude_tags` (tag_utils.py lines 77-92)

Python:
```
def exclude_tags(tag_list, *args):
    clean = tag_list.copy()
    for tag in tag_list:
        for arg in args:
            if arg == tag['Key']:
                clean.remove(tag)
    return clean
```
`list.remove(x)` deletes the first element equal to `x` and raises
`ValueError` when no element is equal; the exception is not caught, so the
embedding returns `Except Unit (List Tag)` with `.error ()` for `ValueError`.
-/

/-- Python `clean.remove(tag)`: delete the first occurrence, `ValueError`
(modelled as `.error ()`) when absent. -/
def pyRemove (clean : List Tag) (tag : Tag) : Except Unit (List Tag) :=
  if tag ∈ clean then .ok (clean.erase tag) else .error ()

/-- The inner `for arg in args` loop of `exclude_tags`, acting on `clean`. -/
def excludeInner (tag : Tag) : List String → List Tag → Except Unit (List Tag)
  | [], clean => .ok clean
  | arg :: rest, clean =>
    if arg = tag.key then
      match pyRemove clean tag with
      | .ok clean' => excludeInner tag rest clean'
      | .error e => .error e
    else excludeInner tag rest clean

/-- The outer `for tag in tag_list` loop of `exclude_tags`. -/
def excludeOuter (args : List String) : List Tag → List Tag → Except Unit (List Tag)
  | [], clean => .ok clean
  | tag :: rest, clean =>
    match excludeInner tag args clean with
    | .ok clean' => excludeOuter args rest clean'
    | .error e => .error e

/-- `exclude_tags(tag_list, *args)`: `clean` starts as a copy of `tag_list`. -/
def exclude_tags (tag_list : List Tag) (args : List String) : Except Unit (List Tag) :=
  excludeOuter args tag_list tag_list

/-! ## `filter_tags` (tag_utils.py lines 113-128)

The deprecated `filter_tags` has a body textually identical to
`exclude_tags`; the embedding repeats it verbatim as separate definitions. -/

/-- The inner loop of `filter_tags` (same text as `excludeInner`). -/
def filterInner (tag : Tag) : List String → List Tag → Except Unit (List Tag)
  | [], clean => .ok clean
  | arg :: rest, clean =>
    if arg = tag.key then
      match pyRemove clean tag with
      | .ok clean' => filterInner tag rest clean'
      | .error e => .error e
    else filterInner tag rest clean

/-- The outer loop of `filter_tags` (same text as `excludeOuter`). -/
def filterOuter (args : List String) : List Tag → List Tag → Except Unit (List Tag)
  | [], clean => .ok clean
  | tag :: rest, clean =>
    match filterInner tag args clean with
    | .ok clean' => filterOuter args rest clean'
    | .error e => .error e

/-- `filter_tags(tag_list, *args)` (deprecated twin of `exclude_tags`). -/
def filter_tags (tag_list : List Tag) (args : List String) : Except Unit (List Tag) :=
  filterOuter args tag_list tag_list

/-! ## `include_tags` (tag_utils.py lines 95-110) -/

/-- `include_tags(tag_list, *args)`: collect the tags whose key matches one of
`args`, in input order (a tag is appended once per matching arg). -/
def include_tags (tag_list : List Tag) (args : List String) : List Tag :=
  tag_list.foldl (fun targets tag =>
    args.foldl (fun ts arg => if arg = tag.key then ts ++ [tag] else ts) targets) []

/-! ## `remove_duplicates` (tag_utils.py lines 196-219)

Python (the path for a list of tag dicts; the `except KeyError` branch only
fires when an element has no `'Key'` entry, which cannot happen for inputs of
type `List Tag`):
```
clean_list, key_list = [], []
for dict in list:
    if dict['Key'] not in key_list:
        clean_list.append(dict)
        key_list.append(dict['Key'])
return clean_list
```
-/

/-- `remove_duplicates(list)` on a list of tag dicts. -/
def remove_duplicates (l : List Tag) : List Tag :=
  (l.foldl (fun (acc : List Tag × List String) t =>
    if t.key ∈ acc.2 then acc else (acc.1 ++ [t], acc.2 ++ [t.key])) ([], [])).1

/-- Recursive presentation of the `remove_duplicates` loop: keep a tag when
its key is not in `seen`, extending `seen` as the Python code extends
`key_list`. Used to reason about `remove_duplicates` by induction. -/
def keepFirst : List Tag → List String → List Tag
  | [], _ => []
  | t :: ts, seen =>
    if t.key ∈ seen then keepFirst ts seen else t :: keepFirst ts (seen ++ [t.key])

/-! ## `valid_tags` (tag_utils.py lines 253-258) -/

/-- `valid_tags(tag_list)`: `False` as soon as some key contains `':'`. -/
def valid_tags : List Tag → Bool
  | [] => true
  | tag :: rest => if ':' ∈ tag.key.data then false else valid_tags rest

/-! ## `divide_tags` (tag_utils.py lines 53-74)

Python dicts are insertion-ordered with unique keys; the embedding models a
dict as an ordered association list with unique keys.
```
matching = []
residual = {x['Key']: x['Value'] for x in tag_list.copy()}
tag_dict = {x['Key']: x['Value'] for x in tag_list}
for key in args:
    for k,v in tag_dict.items():
        try:
            if key == k:
                matching.append({'Key': k, 'Value': v})
            else:
                residual.pop(key)
        except KeyError:
            continue
return matching, [{'Key': k, 'Value': v} for k,v in residual.items()]
```
-/

/-- Python dict assignment `d[k] = v`: overwrite in place, else append. -/
def dictUpsert (d : List (String × String)) (k v : String) : List (String × String) :=
  if d.any (fun p => p.1 = k) then d.map (fun p => if p.1 = k then (k, v) else p)
  else d ++ [(k, v)]

/-- The dict comprehension `{x['Key']: x['Value'] for x in tag_list}`. -/
def dictOfTags (l : List Tag) : List (String × String) :=
  l.foldl (fun d t => dictUpsert d t.key t.value) []

/-- Python `d.pop(k)` (value discarded): `none` models the `KeyError`. -/
def dictPop (d : List (String × String)) (k : String) : Option (List (String × String)) :=
  if d.any (fun p => p.1 = k) then some (d.filter (fun p => ¬(p.1 = k))) else none

/-- The inner `for k,v in tag_dict.items()` loop of `divide_tags`; a
`KeyError` from `residual.pop(key)` is caught and the loop continues. -/
def divideInner (key : String) :
    List (String × String) → List Tag × List (String × String) →
    List Tag × List (String × String)
  | [], st => st
  | (k, v) :: rest, (matching, residual) =>
    if key = k then divideInner key rest (matching ++ [⟨k, v⟩], residual)
    else
      match dictPop residual key with
      | some residual' => divideInner key rest (matching, residual')
      | none => divideInner key rest (matching, residual)

/-- `divide_tags(tag_list, *args)`. -/
def divide_tags (tag_list : List Tag) (args : List String) : List Tag × List Tag :=
  let tag_dict := dictOfTags tag_list
  let residual0 := dictOfTags tag_list
  let st := args.foldl (fun st key => divideInner key tag_dict st) ([], residual0)
  (st.1, st.2.map (fun p => ⟨p.1, p.2⟩))

/-! ## `delete_tags` (tag_utils.py lines 31-50)

```
def delete_tags(resourceIds, tags):
    client = boto3.client('ec2')
    try:
        for resourceid in resourceIds:
            response = client.delete_tags(Resources=[resourceid], Tags=tags)
            if response['ResponseMetadata']['HTTPStatusCode'] == 200:
                logger.info(...); return True
            else:
                logger.warning(...); return False
    except ClientError as e:
        logger.critical(...); return False
```
The external boto3 call is a parameter `client`; raising `ClientError` is the
`.error` case. Both branches of the loop body `return`, so only the first
resource id is ever processed, and an empty `resourceIds` falls off the loop:
the Python function then returns `None`, modelled as `none`. Log calls are
returned as a trace. -/

/-- Log levels of the `logging` facility used throughout the repository. -/
inductive LogLevel where
  | info
  | warning
  | critical
  | debug
deriving DecidableEq, Repr

/-- A `botocore` `ClientError`: `e.response['Error']['Code']` and
`e.response['Error']['Message']`. -/
structure ClientErr where
  code : String
  msg : String
deriving DecidableEq, Repr

/-- The response of the tagging call: `response['ResponseMetadata']['HTTPStatusCode']`. -/
structure Response where
  status : Nat
deriving DecidableEq, Repr

/-- `delete_tags(resourceIds, tags)`, parameterised by the external client. -/
def delete_tags (client : String → List Tag → Except ClientErr Response)
    (resourceIds : List String) (tags : List Tag) :
    List (LogLevel × String) × Option Bool :=
  match resourceIds with
  | [] => ([], none)
  | resourceid :: _ =>
    match client resourceid tags with
    | .ok response =>
      if response.status = 200 then
        ([(.info, "Existing Tags deleted from vol id " ++ resourceid)], some true)
      else
        ([(.warning, "Problem deleting existing tags from vol id " ++ resourceid)], some false)
    | .error e =>
      ([(.critical, "delete_tags: Problem apply tags to ec2 instances (Code: " ++
          e.code ++ " Message: " ++ e.msg ++ ")")], some false)

/-! ## Heap-level model of the list helpers

The purity claim about `exclude_tags` / `include_tags` / `remove_duplicates`
is about object identity: the helpers allocate fresh lists (`tag_list.copy()`,
`[]`) and mutate only those, never the caller's list.  To state this, the
three functions are re-embedded against a small heap: references are `Nat`s,
`alloc` returns a fresh reference, and every Python mutating call
(`clean.remove(tag)`, `targets.append(tag)`, `clean_list.append(dict)`,
`key_list.append(key)`) becomes a `Heap.set` on the reference it targets. -/

/-- A heap object: a Python list of tag dicts or a Python list of strings. -/
inductive Obj where
  | tags : List Tag → Obj
  | keys : List String → Obj
deriving DecidableEq, Repr

/-- Read a tag-list object (heap invariants keep the other case unreachable). -/
def Obj.asTags : Obj → List Tag
  | .tags l => l
  | .keys _ => []

/-- Read a string-list object (heap invariants keep the other case unreachable). -/
def Obj.asKeys : Obj → List String
  | .keys l => l
  | .tags _ => []

/-- A heap: contents of each reference, plus the next fresh reference. -/
structure Heap where
  data : Nat → Obj
  next : Nat

/-- Allocate a fresh object (Python list literal or `.copy()`). -/
def Heap.alloc (h : Heap) (v : Obj) : Nat × Heap :=
  (h.next, ⟨fun q => if q = h.next then v else h.data q, h.next + 1⟩)

/-- Overwrite the object at reference `r` (a Python in-place mutation). -/
def Heap.set (h : Heap) (r : Nat) (v : Obj) : Heap :=
  ⟨fun q => if q = r then v else h.data q, h.next⟩

/-- Inner loop of `exclude_tags` on the heap: each `clean.remove(tag)` writes
the reference `cleanRef`; the `Bool` is `false` when `ValueError` is raised
(aborting the call). -/
def excludeRemoveLoop (cleanRef : Nat) (tag : Tag) : List String → Heap → Heap × Bool
  | [], h => (h, true)
  | arg :: rest, h =>
    if arg = tag.key then
      let cur := (h.data cleanRef).asTags
      if tag ∈ cur then
        excludeRemoveLoop cleanRef tag rest (h.set cleanRef (.tags (cur.erase tag)))
      else (h, false)
    else excludeRemoveLoop cleanRef tag rest h

/-- Outer loop of `exclude_tags` on the heap. -/
def excludeTagLoop (cleanRef : Nat) (args : List String) : List Tag → Heap → Heap × Bool
  | [], h => (h, true)
  | tag :: rest, h =>
    match excludeRemoveLoop cleanRef tag args h with
    | (h', true) => excludeTagLoop cleanRef args rest h'
    | (h', false) => (h', false)

/-- `exclude_tags` on the heap: `clean = tag_list.copy()` allocates a fresh
reference; the result is the heap after the call, the reference of the
returned list, and whether the call completed without `ValueError`. -/
def exclude_tags_heap (h : Heap) (tagListRef : Nat) (args : List String) :
    Heap × Nat × Bool :=
  let v := (h.data tagListRef).asTags
  let a := h.alloc (.tags v)
  let res := excludeTagLoop a.1 args v a.2
  (res.1, a.1, res.2)

/-- Loop of `include_tags` on the heap: `targets.append(tag)` writes the
reference `targetsRef`. -/
def includeTagLoop (targetsRef : Nat) (args : List String) : List Tag → Heap → Heap
  | [], h => h
  | tag :: rest, h =>
    let h' := args.foldl (fun hh arg =>
      if arg = tag.key then
        hh.set targetsRef (.tags ((hh.data targetsRef).asTags ++ [tag]))
      else hh) h
    includeTagLoop targetsRef args rest h'

/-- `include_tags` on the heap: `targets = []` allocates a fresh reference. -/
def include_tags_heap (h : Heap) (tagListRef : Nat) (args : List String) : Heap × Nat :=
  let a := h.alloc (.tags [])
  let h2 := includeTagLoop a.1 args ((h.data tagListRef).asTags) a.2
  (h2, a.1)

/-- Loop of `remove_duplicates` on the heap: `clean_list.append(dict)` and
`key_list.append(dict['Key'])` write the two fresh references. -/
def rdLoop (cleanRef keyRef : Nat) : List Tag → Heap → Heap
  | [], h => h
  | t :: rest, h =>
    if t.key ∈ (h.data keyRef).asKeys then rdLoop cleanRef keyRef rest h
    else
      let h1 := h.set cleanRef (.tags ((h.data cleanRef).asTags ++ [t]))
      let h2 := h1.set keyRef (.keys ((h1.data keyRef).asKeys ++ [t.key]))
      rdLoop cleanRef keyRef rest h2

/-- `remove_duplicates` on the heap: `clean_list, key_list = [], []` allocates
two fresh references. -/
def remove_duplicates_heap (h : Heap) (listRef : Nat) : Heap × Nat :=
  let a := h.alloc (.tags [])
  let b := a.2.alloc (.keys [])
  let h3 := rdLoop a.1 b.1 ((h.data listRef).asTags) b.2
  (h3, a.1)

/-! ## `usermessage.py`

The console helper `stdout_message` and its companion `log_message`.
External effects are parameters:
* `printFail s` is the behaviour of `print(s)`: `none` when the print
  succeeds, `some err` when it raises an exception rendered as `err`;
* `logFail lvl m` likewise for the logger call of that level.
Successful prints and every logger invocation are returned as traces in an
`OutState`; the function result is `.ret b` for `return b` and `.exn err`
for an uncaught exception. `Colors` (imported from `pyaws.colors`, not part
of this repository's sources) is an opaque record of ANSI escape strings. -/

/-- The ANSI escape strings of `pyaws.colors.Colors` used by `usermessage.py`. -/
structure Colors where
  YELLOW : String
  RED : String
  ORANGE : String
  RESET : String
  BOLD : String
  GREEN : String
  DARKCYAN : String
deriving DecidableEq, Repr

/-- `critical_status` (usermessage.py line 26). -/
def critical_status : List String :=
  ["ERROR", "FAIL", "WTF", "STOP", "HALT", "EXIT", "F*CK"]

/-- `warning_status` (usermessage.py line 27). -/
def warning_status : List String :=
  ["WARN", "WARNING", "CAUTION", "SLOW"]

/-- Python `str.upper()` (ASCII suffices for the strings of this module). -/
def pyUpper (s : String) : String := ⟨s.data.map Char.toUpper⟩

/-- Python values as needed by the test
`prefix not in (critical_status, warning_status)`: strings and tuples. -/
inductive PyVal where
  | str : String → PyVal
  | tup : List PyVal → PyVal

mutual

/-- Python `==` on `PyVal`: a `str` never equals a `tuple`. -/
def PyVal.eq : PyVal → PyVal → Bool
  | .str a, .str b => a == b
  | .tup a, .tup b => PyVal.eqList a b
  | .str _, .tup _ => false
  | .tup _, .str _ => false

/-- Elementwise Python `==` on tuple contents. -/
def PyVal.eqList : List PyVal → List PyVal → Bool
  | [], [] => true
  | x :: xs, y :: ys => PyVal.eq x y && PyVal.eqList xs ys
  | [], _ :: _ => false
  | _ :: _, [] => false

end

/-- Python `x in t` for a tuple `t`: `==` against each element. -/
def pyInTup (x : PyVal) (elems : List PyVal) : Bool :=
  elems.any (fun e => PyVal.eq x e)

/-- The tuple `(critical_status, warning_status)` of usermessage.py line 78:
a 2-tuple whose elements are the two status tuples themselves. -/
def statusTuplePair : List PyVal :=
  [PyVal.tup (critical_status.map PyVal.str), PyVal.tup (warning_status.map PyVal.str)]

/-- Python `str()` of a tuple of strings, e.g. `('WARN', 'SLOW')`. -/
def pyStrTuple (l : List String) : String :=
  "(" ++ String.intercalate ", " (l.map (fun s => "\x27" ++ s ++ "\x27")) ++ ")"

/-- The usage-error text printed at usermessage.py lines 80-83
(`inspect.stack()[0][3]` is the function name `stdout_message`). -/
def usageMessage : String :=
  "[stdout_message]: Prefix must be in either:\n\tcritical status list:\t" ++
    pyStrTuple critical_status ++ "\nor\n\twarning_status list:\t" ++
    pyStrTuple warning_status

/-- Python `str.expandtabs(tabsize)` over the character list, tracking the
current column; `\n` and `\r` reset the column, a non-positive tabsize
deletes tabs. -/
def expandtabsAux (tabsize : Int) : List Char → Nat → List Char
  | [], _ => []
  | c :: cs, col =>
    if c = '\t' then
      if 0 < tabsize then
        let ts := tabsize.toNat
        let n := ts - col % ts
        List.replicate n ' ' ++ expandtabsAux tabsize cs (col + n)
      else expandtabsAux tabsize cs col
    else if c = '\n' ∨ c = '\r' then c :: expandtabsAux tabsize cs 0
    else c :: expandtabsAux tabsize cs (col + 1)

/-- Python `s.expandtabs(tabsize)`. -/
def expandtabs (s : String) (tabsize : Int) : String :=
  ⟨expandtabsAux tabsize s.data 0⟩

/-- Routing of `log_message` (usermessage.py lines 30-41): critical statuses
to `logger.critical`, warning statuses to `logger.warning`, else `logger.info`. -/
def logLevelFor (label : String) : LogLevel :=
  if label ∈ critical_status then .critical
  else if label ∈ warning_status then .warning
  else .info

/-- `log_message(label, msg)`: the single logger invocation it performs
(level and text), together with the exception the logger raised, if any. -/
def log_message (logFail : LogLevel → String → Option String) (label msg : String) :
    (LogLevel × String) × Option String :=
  if label ∈ critical_status then ((.critical, msg), logFail .critical msg)
  else if label ∈ warning_status then ((.warning, msg), logFail .warning msg)
  else ((.info, msg), logFail .info msg)

/-- Observable output of one `stdout_message` call: the strings that reached
stdout and the logger invocations made, in order. -/
structure OutState where
  stdout : List String
  logs : List (LogLevel × String)
deriving DecidableEq, Repr

/-- Outcome of a Python call: a returned value or an uncaught exception. -/
inductive PyResult where
  | ret : Bool → PyResult
  | exn : String → PyResult
deriving DecidableEq, Repr

/-- The header built in the `try` block (usermessage.py lines 90-109). -/
def buildHeader (colors : Colors) (pfx severity : String) : String :=
  if pfx ∈ critical_status ∨ pyUpper severity = "CRITICAL" then
    colors.YELLOW ++ "\t[ " ++ colors.RED ++ pfx ++ colors.YELLOW ++ " ]" ++
      colors.RESET ++ ": "
  else if pyUpper severity ∈ warning_status then
    colors.YELLOW ++ "\t[ " ++ colors.ORANGE ++ pfx ++ colors.YELLOW ++ " ]" ++
      colors.RESET ++ ": "
  else if pfx = "OK" then
    colors.YELLOW ++ "\t[  " ++ colors.BOLD ++ colors.GREEN ++ pfx ++
      colors.YELLOW ++ "  ]" ++ colors.RESET ++ ": "
  else if pfx = "DONE" ∨ pfx = "GOOD" then
    colors.YELLOW ++ "\t[ " ++ colors.BOLD ++ colors.GREEN ++ pfx ++
      colors.YELLOW ++ " ]" ++ colors.RESET ++ ": "
  else
    colors.YELLOW ++ "\t[ " ++ colors.DARKCYAN ++ pfx ++ colors.YELLOW ++ " ]" ++
      colors.RESET ++ ": "

/-- The text passed to `print` in the `try` block (usermessage.py lines
111-114): `header.expandtabs(tabspaces) + str(message)`, wrapped in blank
lines unless `multiline`. -/
def renderLine (colors : Colors) (message pfx : String) (multiline : Bool)
    (indent : Int) (severity : String) : String :=
  if multiline then expandtabs (buildHeader colors pfx severity) indent ++ message
  else "\n" ++ expandtabs (buildHeader colors pfx severity) indent ++ message ++ "\n"

/-- The f-string printed by the `except` clause (usermessage.py line 120). -/
def excReport (err : String) : String :=
  "stdout_message: Problem sending msg to stdout: " ++ err

/-- The `except Exception` handler (usermessage.py lines 119-121): print the
report and return `False`; if that print itself raises, the new exception
propagates. -/
def excHandler (printFail : String → Option String) (st : OutState) (err : String) :
    OutState × PyResult :=
  match printFail (excReport err) with
  | some err2 => (st, .exn err2)
  | none => (⟨st.stdout ++ [excReport err], st.logs⟩, .ret false)

/-- `stdout_message(message, prefix, quiet, multiline, indent, severity,
logging)` (usermessage.py lines 44-123). `int(indent)` is the identity on an
`Int` argument. The guard at line 78 is
`severity.upper() and prefix not in (critical_status, warning_status)`:
string truthiness is non-emptiness, and the membership test compares the
prefix against the two status *tuples* (`statusTuplePair`). -/
def stdout_message (printFail : String → Option String)
    (logFail : LogLevel → String → Option String) (colors : Colors)
    (message pfx0 : String) (quiet multiline : Bool) (indent : Int)
    (severity : String) (logging : Bool) : OutState × PyResult :=
  let pfx := pyUpper pfx0
  if quiet then (⟨[], []⟩, .ret true)
  else if !(pyUpper severity).isEmpty && !pyInTup (PyVal.str pfx) statusTuplePair then
    match printFail usageMessage with
    | some err => (⟨[], []⟩, .exn err)
    | none => (⟨[usageMessage], []⟩, .ret false)
  else
    let printed := renderLine colors message pfx multiline indent severity
    match printFail printed with
    | some err => excHandler printFail ⟨[], []⟩ err
    | none =>
      if logging then
        match log_message logFail pfx message with
        | (entry, some err) => excHandler printFail ⟨[printed], [entry]⟩ err
        | (entry, none) => (⟨[printed], [entry]⟩, .ret true)
      else (⟨[printed], []⟩, .ret true)

/-! ## Theorems -/

/-- C3: `valid_tags` returns `False` iff some tag's key contains `':'`; a
list with no such key is accepted. -/
theorem valid_tags_false_iff (l : List Tag) :
    valid_tags l = false ↔ ∃ t ∈ l, ':' ∈ t.key.data := by
  induction l with
  | nil => simp [valid_tags]
  | cons t ts ih =>
    by_cases h : ':' ∈ t.key.data
    · simp [valid_tags, h]
    · simp [valid_tags, h, ih]

/-- C10: on a single-element tag list whose key is passed as the argument,
`divide_tags` returns the tag in the matching list and also leaves it in the
residual list, so the two outputs do not partition the input. -/
theorem divide_tags_not_partition (t : Tag) :
    divide_tags [t] [t.key] = ([t], [t]) ∧
    t ∈ (divide_tags [t] [t.key]).1 ∧ t ∈ (divide_tags [t] [t.key]).2 := by
  have h : divide_tags [t] [t.key] = ([t], [t]) := by
    simp [divide_tags, dictOfTags, dictUpsert, divideInner]
  refine ⟨h, ?_, ?_⟩ <;> rw [h] <;> simp

/-- The two textually identical inner loops compute the same function. -/
theorem filterInner_eq_excludeInner (tag : Tag) :
    ∀ (args : List String) (clean : List Tag),
      filterInner tag args clean = excludeInner tag args clean := by
  intro args
  induction args with
  | nil => intro clean; rfl
  | cons a rest ih =>
    intro clean
    by_cases h : a = tag.key
    · simp only [filterInner, excludeInner, h, if_pos]
      cases pyRemove clean tag with
      | ok clean' => exact ih clean'
      | error e => rfl
    · simp only [filterInner, excludeInner, h, if_neg, ite_false]
      exact ih clean

/-- The two textually identical outer loops compute the same function. -/
theorem filterOuter_eq_excludeOuter (args : List String) :
    ∀ (l clean : List Tag), filterOuter args l clean = excludeOuter args l clean := by
  intro l
  induction l with
  | nil => intro clean; rfl
  | cons tag rest ih =>
    intro clean
    simp only [filterOuter, excludeOuter, filterInner_eq_excludeInner]
    cases excludeInner tag args clean with
    | ok clean' => exact ih clean'
    | error e => rfl

/-- C9: the deprecated `filter_tags` agrees with `exclude_tags` on every tag
list and every argument tuple (the two bodies are verbatim copies). -/
theorem filter_tags_eq_exclude_tags (tag_list : List Tag) (args : List String) :
    filter_tags tag_list args = exclude_tags tag_list args :=
  filterOuter_eq_excludeOuter args tag_list tag_list

/-- C4, counterexample: on an empty resource-id list the loop body never
runs, the function falls off the loop and returns Python `None`, not a
boolean (here with a client that would answer HTTP 200). -/
theorem delete_tags_empty_not_boolean :
    (delete_tags (fun _ _ => Except.ok ⟨200⟩) [] []).2 = none := rfl

/-- C4, amended: for every *non-empty* resource-id list, `delete_tags`
returns a boolean: a `ClientError` from the external call is caught, logged
critical, and converted to `False`; an HTTP 200 response yields `True`, any
other status yields `False`. -/
theorem delete_tags_nonempty_boolean
    (client : String → List Tag → Except ClientErr Response)
    (resourceIds : List String) (tags : List Tag) (h : resourceIds ≠ []) :
    (∃ b : Bool, (delete_tags client resourceIds tags).2 = some b) ∧
    (∀ e, client (resourceIds.head h) tags = .error e →
      delete_tags client resourceIds tags =
        ([(LogLevel.critical,
            "delete_tags: Problem apply tags to ec2 instances (Code: " ++
              e.code ++ " Message: " ++ e.msg ++ ")")], some false)) ∧
    (∀ r, client (resourceIds.head h) tags = .ok r → r.status = 200 →
      (delete_tags client resourceIds tags).2 = some true) ∧
    (∀ r, client (resourceIds.head h) tags = .ok r → r.status ≠ 200 →
      (delete_tags client resourceIds tags).2 = some false) := by
  match resourceIds with
  | [] => exact absurd rfl h
  | rid :: rest =>
    simp only [List.head]
    cases hc : client rid tags with
    | ok r =>
      by_cases hs : r.status = 200
      · refine ⟨⟨true, ?_⟩, ?_, ?_, ?_⟩ <;> simp [delete_tags, hc, hs]
      · refine ⟨⟨false, ?_⟩, ?_, ?_, ?_⟩ <;> simp [delete_tags, hc, hs]
    | error e =>
      refine ⟨⟨false, ?_⟩, ?_, ?_, ?_⟩ <;> simp [delete_tags, hc]

/-- C4, witness: the amended theorem applied at a concrete non-empty input. -/
theorem delete_tags_nonempty_boolean_witness :
    (["vol-1"] : List String) ≠ [] ∧
    (∃ b : Bool, (delete_tags (fun _ _ => Except.ok ⟨200⟩) ["vol-1"] []).2 = some b) :=
  ⟨by decide,
    (delete_tags_nonempty_boolean (fun _ _ => Except.ok ⟨200⟩) ["vol-1"] [] (by decide)).1⟩

/-- With pairwise distinct `args`, the inner loop of `exclude_tags` performs
at most one `remove`: exactly one when the tag's key is among `args`. -/
theorem excludeInner_nodup (tag : Tag) :
    ∀ (args : List String), args.Nodup → ∀ clean,
      excludeInner tag args clean =
        if tag.key ∈ args then pyRemove clean tag else .ok clean := by
  intro args
  induction args with
  | nil => intro _ clean; simp [excludeInner]
  | cons a rest ih =>
    intro hnd clean
    rw [List.nodup_cons] at hnd
    obtain ⟨ha, hrest⟩ := hnd
    by_cases h : a = tag.key
    · subst h
      have hstep : excludeInner tag (tag.key :: rest) clean =
          match pyRemove clean tag with
          | .ok clean' => excludeInner tag rest clean'
          | .error e => .error e := by
        simp [excludeInner]
      rw [hstep, if_pos (List.mem_cons_self _ _)]
      cases hr : pyRemove clean tag with
      | ok clean' =>
        show excludeInner tag rest clean' = Except.ok clean'
        rw [ih hrest clean', if_neg ha]
      | error e => rfl
    · simp only [excludeInner, if_neg h]
      rw [ih hrest clean]
      by_cases hm : tag.key ∈ rest
      · rw [if_pos hm, if_pos (List.mem_cons_of_mem a hm)]
      · rw [if_neg hm, if_neg (by
          intro hx
          rcases List.mem_cons.mp hx with h' | h'
          · exact h h'.symm
          · exact hm h')]

/-- Invariant of the outer loop of `exclude_tags`: starting from a prefix of
already-kept (non-matching) tags followed by the tags still to be visited,
the loop completes without `ValueError` and keeps exactly the non-matching
tags, in order. -/
theorem excludeOuter_filter (args : List String) (hnd : args.Nodup) :
    ∀ (suffix pre : List Tag), (∀ u ∈ pre, u.key ∉ args) →
      excludeOuter args suffix (pre ++ suffix) =
        .ok (pre ++ suffix.filter (fun t => decide (t.key ∉ args))) := by
  intro suffix
  induction suffix with
  | nil => intro pre _; simp [excludeOuter]
  | cons t rest ih =>
    intro pre hpre
    simp only [excludeOuter]
    rw [excludeInner_nodup t args hnd (pre ++ t :: rest)]
    by_cases hm : t.key ∈ args
    · rw [if_pos hm]
      have htpre : t ∉ pre := fun hin => (hpre t hin) hm
      have htmem : t ∈ pre ++ t :: rest :=
        List.mem_append_right _ (List.mem_cons_self _ _)
      have herase : (pre ++ t :: rest).erase t = pre ++ rest := by
        rw [List.erase_append_right _ (by simpa using htpre), List.erase_cons_head]
      simp only [pyRemove, if_pos htmem, herase]
      have := ih pre hpre
      simpa [List.filter_cons, hm] using this
    · rw [if_neg hm]
      have hpre' : ∀ u ∈ pre ++ [t], u.key ∉ args := by
        intro u hu
        rcases List.mem_append.mp hu with h' | h'
        · exact hpre u h'
        · rcases List.mem_singleton.mp h' with rfl
          exact hm
      have := ih (pre ++ [t]) hpre'
      rw [List.append_assoc] at this
      simpa [List.filter_cons, hm] using this

/-- C1: for pairwise distinct argument keys, `exclude_tags` completes without
error and returns exactly the tags whose key is not among the arguments —
in particular every duplicate occurrence of an excluded key is removed, and
no returned tag carries an excluded key. -/
theorem exclude_tags_removes_keys (tag_list : List Tag) (args : List String)
    (h : args.Nodup) :
    exclude_tags tag_list args =
      .ok (tag_list.filter (fun t => decide (t.key ∉ args))) ∧
    ∀ res, exclude_tags tag_list args = .ok res → ∀ t ∈ res, t.key ∉ args := by
  have hmain : exclude_tags tag_list args =
      .ok (tag_list.filter (fun t => decide (t.key ∉ args))) := by
    have := excludeOuter_filter args h tag_list [] (by simp)
    simpa [exclude_tags] using this
  refine ⟨hmain, ?_⟩
  intro res hres t ht
  rw [hmain] at hres
  cases hres
  have := List.of_mem_filter ht
  simpa using this

/-- C1, witness: a concrete run with a duplicated key, distinct args. -/
theorem exclude_tags_removes_keys_witness :
    (["a"] : List String).Nodup ∧
    (exclude_tags [⟨"a", "1"⟩, ⟨"b", "2"⟩, ⟨"a", "3"⟩] ["a"] =
      .ok (([⟨"a", "1"⟩, ⟨"b", "2"⟩, ⟨"a", "3"⟩] : List Tag).filter
        (fun t => decide (t.key ∉ (["a"] : List String)))) ∧
    ∀ res, exclude_tags [⟨"a", "1"⟩, ⟨"b", "2"⟩, ⟨"a", "3"⟩] ["a"] = .ok res →
      ∀ t ∈ res, t.key ∉ (["a"] : List String)) :=
  ⟨by decide, exclude_tags_removes_keys [⟨"a", "1"⟩, ⟨"b", "2"⟩, ⟨"a", "3"⟩] ["a"] (by decide)⟩

/-- The accumulator fold of `remove_duplicates` computes `keepFirst`. -/
theorem remove_duplicates_eq_keepFirst (l : List Tag) :
    remove_duplicates l = keepFirst l [] := by
  suffices h : ∀ (l : List Tag) (c : List Tag) (s : List String),
      (l.foldl (fun (acc : List Tag × List String) t =>
        if t.key ∈ acc.2 then acc else (acc.1 ++ [t], acc.2 ++ [t.key])) (c, s)).1 =
        c ++ keepFirst l s by
    simpa [remove_duplicates] using h l [] []
  intro l
  induction l with
  | nil => intro c s; simp [keepFirst]
  | cons t ts ih =>
    intro c s
    by_cases hm : t.key ∈ s
    · simp [List.foldl_cons, hm, keepFirst, ih]
    · simp [List.foldl_cons, hm, keepFirst, ih]

/-- `keepFirst` returns a subsequence of its input. -/
theorem keepFirst_sublist : ∀ (l : List Tag) (s : List String),
    List.Sublist (keepFirst l s) l := by
  intro l
  induction l with
  | nil => intro s; simp [keepFirst]
  | cons t ts ih =>
    intro s
    by_cases hm : t.key ∈ s
    · simpa [keepFirst, hm] using List.Sublist.cons t (ih s)
    · simpa [keepFirst, hm] using List.Sublist.cons₂ t (ih (s ++ [t.key]))

/-- A tag kept by `keepFirst` has a key that was not yet seen. -/
theorem keepFirst_key_not_seen : ∀ (l : List Tag) (s : List String) (t : Tag),
    t ∈ keepFirst l s → t.key ∉ s := by
  intro l
  induction l with
  | nil => intro s t ht; simp [keepFirst] at ht
  | cons u ts ih =>
    intro s t ht
    by_cases hm : u.key ∈ s
    · rw [keepFirst, if_pos hm] at ht
      exact ih s t ht
    · rw [keepFirst, if_neg hm] at ht
      rcases List.mem_cons.mp ht with rfl | ht'
    
      · exact hm
      · intro hin
        exact ih (s ++ [u.key]) t ht' (List.mem_append_left _ hin)

/-- The keys of a `keepFirst` result are pairwise distinct. -/
theorem keepFirst_nodup_keys : ∀ (l : List Tag) (s : List String),
    ((keepFirst l s).map Tag.key).Nodup := by
  intro l
  induction l with
  | nil => intro s; simp [keepFirst]
  | cons u ts ih =>
    intro s
    by_cases hm : u.key ∈ s
    · simpa [keepFirst, hm] using ih s
    · rw [keepFirst, if_neg hm]
      simp only [List.map_cons, List.nodup_cons]
      refine ⟨?_, ih (s ++ [u.key])⟩
      intro hmem
      rcases List.mem_map.mp hmem with ⟨v, hv, hkey⟩
      have := keepFirst_key_not_seen ts (s ++ [u.key]) v hv
      exact this (by rw [hkey]; exact List.mem_append_right _ (List.mem_singleton.mpr rfl))

/-- Membership in `keepFirst`: exactly the tags that are the first occurrence
of their key in the input and whose key was not seen before. -/
theorem keepFirst_mem_iff : ∀ (l : List Tag) (s : List String) (t : Tag),
    t ∈ keepFirst l s ↔
      (l.find? (fun u => u.key == t.key) = some t ∧ t.key ∉ s) := by
  intro l
  induction l with
  | nil => intro s t; simp [keepFirst]
  | cons u ts ih =>
    intro s t
    by_cases hk : u.key = t.key
    · have hfind : List.find? (fun u => u.key == t.key) (u :: ts) = some u := by
        simp [List.find?_cons, hk]
      rw [hfind]
      by_cases hm : u.key ∈ s
      · rw [keepFirst, if_pos hm]
        constructor
        · intro ht
          exact absurd (hk ▸ hm) (keepFirst_key_not_seen ts s t ht)
        · rintro ⟨hu, hns⟩
          injection hu with hu
          exact absurd (hk ▸ hm) (hu ▸ hns)
      · rw [keepFirst, if_neg hm]
        constructor
        · intro ht
          rcases List.mem_cons.mp ht with rfl | ht'
          · exact ⟨rfl, hm⟩
          · have := keepFirst_key_not_seen ts (s ++ [u.key]) t ht'
            exact absurd (List.mem_append_right _ (by simp [hk])) this
        · rintro ⟨hu, _⟩
          injection hu with hu
          exact hu ▸ List.mem_cons_self u _
    · have hfind : List.find? (fun u => u.key == t.key) (u :: ts) =
          List.find? (fun u => u.key == t.key) ts := by
        simp [List.find?_cons, hk]
      rw [hfind]
      by_cases hm : u.key ∈ s
      · rw [keepFirst, if_pos hm]
        exact ih s t
      · rw [keepFirst, if_neg hm]
        constructor
        · intro ht
          rcases List.mem_cons.mp ht with rfl | ht'
          · exact absurd rfl hk
          · have := (ih (s ++ [u.key]) t).mp ht'
            refine ⟨this.1, fun hin => this.2 (List.mem_append_left _ hin)⟩
        · rintro ⟨hfind, hns⟩
          refine List.mem_cons_of_mem u ((ih (s ++ [u.key]) t).mpr ⟨hfind, ?_⟩)
          intro hin
          rcases List.mem_append.mp hin with h' | h'
          · exact hns h'
          · exact hk (List.mem_singleton.mp h').symm

/-- C2: `remove_duplicates` returns the subsequence of its input keeping, for
each key, exactly the first tag carrying that key; the returned keys are
pairwise distinct. -/
theorem remove_duplicates_keeps_first (l : List Tag) :
    List.Sublist (remove_duplicates l) l ∧
    ((remove_duplicates l).map Tag.key).Nodup ∧
    ∀ t : Tag, t ∈ remove_duplicates l ↔
      l.find? (fun u => u.key == t.key) = some t := by
  rw [remove_duplicates_eq_keepFirst]
  refine ⟨keepFirst_sublist l [], keepFirst_nodup_keys l [], ?_⟩
  intro t
  rw [keepFirst_mem_iff]
  simp

/-- Writing one reference leaves every other reference unchanged. -/
theorem Heap.set_data_ne (h : Heap) (r q : Nat) (v : Obj) (hq : q ≠ r) :
    (h.set r v).data q = h.data q := by
  simp [Heap.set, hq]

/-- The inner loop of heap-level `exclude_tags` writes only `cleanRef`. -/
theorem excludeRemoveLoop_data (cleanRef q : Nat) (tag : Tag) (hq : q ≠ cleanRef) :
    ∀ (l : List String) (h : Heap),
      ((excludeRemoveLoop cleanRef tag l h).1).data q = h.data q := by
  intro l
  induction l with
  | nil => intro h; rfl
  | cons a rest ih =>
    intro h
    simp only [excludeRemoveLoop]
    by_cases ha : a = tag.key
    · rw [if_pos ha]
      by_cases hm : tag ∈ (h.data cleanRef).asTags
      · rw [if_pos hm, ih]
        exact Heap.set_data_ne h cleanRef q _ hq
      · rw [if_neg hm]
    · rw [if_neg ha]
      exact ih h

/-- The outer loop of heap-level `exclude_tags` writes only `cleanRef`. -/
theorem excludeTagLoop_data (cleanRef q : Nat) (args : List String) (hq : q ≠ cleanRef) :
    ∀ (l : List Tag) (h : Heap),
      ((excludeTagLoop cleanRef args l h).1).data q = h.data q := by
  intro l
  induction l with
  | nil => intro h; rfl
  | cons tag rest ih =>
    intro h
    have hpre := excludeRemoveLoop_data cleanRef q tag hq args h
    simp only [excludeTagLoop]
    cases hres : excludeRemoveLoop cleanRef tag args h with
    | mk h' ok =>
      rw [hres] at hpre
      cases ok with
      | true =>
        show ((excludeTagLoop cleanRef args rest h').1).data q = h.data q
        rw [ih h']
        exact hpre
      | false => exact hpre

/-- The per-tag fold of heap-level `include_tags` writes only `targetsRef`. -/
theorem includeFold_data (targetsRef q : Nat) (tag : Tag) (hq : q ≠ targetsRef) :
    ∀ (args : List String) (h : Heap),
      (args.foldl (fun hh arg =>
        if arg = tag.key then
          hh.set targetsRef (.tags ((hh.data targetsRef).asTags ++ [tag]))
        else hh) h).data q = h.data q := by
  intro args
  induction args with
  | nil => intro h; rfl
  | cons a rest ih =>
    intro h
    rw [List.foldl_cons, ih]
    by_cases ha : a = tag.key
    · rw [if_pos ha]
      exact Heap.set_data_ne h targetsRef q _ hq
    · rw [if_neg ha]

/-- The loop of heap-level `include_tags` writes only `targetsRef`. -/
theorem includeTagLoop_data (targetsRef q : Nat) (args : List String) (hq : q ≠ targetsRef) :
    ∀ (l : List Tag) (h : Heap),
      (includeTagLoop targetsRef args l h).data q = h.data q := by
  intro l
  induction l with
  | nil => intro h; rfl
  | cons tag rest ih =>
    intro h
    simp only [includeTagLoop]
    rw [ih]
    exact includeFold_data targetsRef q tag hq args h

/-- The loop of heap-level `remove_duplicates` writes only the two fresh
references `cleanRef` and `keyRef`. -/
theorem rdLoop_data (cleanRef keyRef q : Nat) (hq1 : q ≠ cleanRef) (hq2 : q ≠ keyRef) :
    ∀ (l : List Tag) (h : Heap),
      (rdLoop cleanRef keyRef l h).data q = h.data q := by
  intro l
  induction l with
  | nil => intro h; rfl
  | cons t rest ih =>
    intro h
    simp only [rdLoop]
    by_cases hm : t.key ∈ (h.data keyRef).asKeys
    · rw [if_pos hm]
      exact ih h
    · rw [if_neg hm, ih, Heap.set_data_ne _ _ _ _ hq2, Heap.set_data_ne _ _ _ _ hq1]

/-- C6: `exclude_tags`, `include_tags` and `remove_duplicates` do not mutate
the caller's list: every heap write of each call targets a freshly allocated
reference, so the object at the argument reference is unchanged after the
call (even when `exclude_tags` aborts with `ValueError`), and the returned
reference is a new object, distinct from the argument. -/
theorem tag_helpers_no_mutation (h : Heap) (r : Nat) (args : List String)
    (hr : r < h.next) :
    ((exclude_tags_heap h r args).1.data r = h.data r ∧
      (exclude_tags_heap h r args).2.1 ≠ r) ∧
    ((include_tags_heap h r args).1.data r = h.data r ∧
      (include_tags_heap h r args).2 ≠ r) ∧
    ((remove_duplicates_heap h r).1.data r = h.data r ∧
      (remove_duplicates_heap h r).2 ≠ r) := by
  have hne : r ≠ h.next := Nat.ne_of_lt hr
  have hne1 : r ≠ h.next + 1 := Nat.ne_of_lt (Nat.lt_succ_of_lt hr)
  refine ⟨⟨?_, ?_⟩, ⟨?_, ?_⟩, ⟨?_, ?_⟩⟩
  · simp only [exclude_tags_heap, Heap.alloc]
    rw [excludeTagLoop_data h.next r args hne]
    simp [hne]
  · simp only [exclude_tags_heap, Heap.alloc]
    exact fun hc => hne hc.symm
  · simp only [include_tags_heap, Heap.alloc]
    rw [includeTagLoop_data h.next r args hne]
    simp [hne]
  · simp only [include_tags_heap, Heap.alloc]
    exact fun hc => hne hc.symm
  · simp only [remove_duplicates_heap, Heap.alloc]
    rw [rdLoop_data h.next (h.next + 1) r hne hne1]
    simp [hne, hne1]
  · simp only [remove_duplicates_heap, Heap.alloc]
    exact fun hc => hne hc.symm

/-- C6, witness: a one-reference heap holding one tag. -/
theorem tag_helpers_no_mutation_witness :
    0 < (Heap.mk (fun _ => Obj.tags [⟨"a", "1"⟩]) 1).next ∧
    ((exclude_tags_heap (Heap.mk (fun _ => Obj.tags [⟨"a", "1"⟩]) 1) 0 ["a"]).1.data 0 =
        (Heap.mk (fun _ => Obj.tags [⟨"a", "1"⟩]) 1).data 0 ∧
      (exclude_tags_heap (Heap.mk (fun _ => Obj.tags [⟨"a", "1"⟩]) 1) 0 ["a"]).2.1 ≠ 0) :=
  ⟨by decide,
    (tag_helpers_no_mutation (Heap.mk (fun _ => Obj.tags [⟨"a", "1"⟩]) 1) 0 ["a"]
      (by decide)).1⟩

/-- A Python string never equals a tuple, so the membership test of
usermessage.py line 78 (`prefix not in (critical_status, warning_status)`)
can never find the prefix: the prefix is compared against the two status
tuples themselves, not their elements. -/
theorem pyInTup_str_statusTuplePair (s : String) :
    pyInTup (PyVal.str s) statusTuplePair = false := by
  simp [pyInTup, statusTuplePair, PyVal.eq]

/-- `log_message` performs exactly one logger call, at the level selected by
the label, carrying the message text. -/
theorem log_message_eq (logFail : LogLevel → String → Option String)
    (label msg : String) :
    log_message logFail label msg =
      ((logLevelFor label, msg), logFail (logLevelFor label) msg) := by
  unfold log_message logLevelFor
  by_cases h1 : label ∈ critical_status
  · simp [h1]
  · by_cases h2 : label ∈ warning_status <;> simp [h1, h2]

/-- An upper-cased string is empty only for the empty string. -/
theorem pyUpper_ne_empty (s : String) (h : s ≠ "") : pyUpper s ≠ "" := by
  intro hc
  apply h
  have hd := congrArg String.data hc
  simp only [pyUpper, List.map_eq_nil_iff] at hd
  cases s with
  | mk data =>
    simp only at hd
    subst hd
    rfl

/-- C8: with a non-empty severity and `quiet=False`, `stdout_message` takes
the guard branch for every prefix: the membership test against the two
status tuples never succeeds (first conjunct), so the call prints only the
usage error, logs nothing, and returns `False` — the message is never
printed and severity never selects a color. -/
theorem stdout_message_severity_guard (printFail : String → Option String)
    (logFail : LogLevel → String → Option String) (colors : Colors)
    (message pfx0 : String) (multiline : Bool) (indent : Int)
    (severity : String) (logging : Bool)
    (hsev : severity ≠ "") (hpu : printFail usageMessage = none) :
    (∀ s : String, pyInTup (PyVal.str s) statusTuplePair = false) ∧
    stdout_message printFail logFail colors message pfx0 false multiline indent
        severity logging = (⟨[usageMessage], []⟩, .ret false) := by
  refine ⟨pyInTup_str_statusTuplePair, ?_⟩
  have hne : (pyUpper severity).isEmpty = false := by
    rcases hb : (pyUpper severity).isEmpty with _ | _
    · rfl
    · exact absurd ((String.isEmpty_iff _).mp hb) (pyUpper_ne_empty severity hsev)
  have hguard : (!(pyUpper severity).isEmpty &&
      !pyInTup (PyVal.str (pyUpper pfx0)) statusTuplePair) = true := by
    rw [hne, pyInTup_str_statusTuplePair]
    rfl
  simp [stdout_message, hguard, hpu]

/-- C8, witness: severity `"x"`, prefix `"INFO"`, a printer that succeeds. -/
theorem stdout_message_severity_guard_witness :
    ("x" : String) ≠ "" ∧
    stdout_message (fun _ => none) (fun _ _ => none) ⟨"", "", "", "", "", "", ""⟩
        "hi" "INFO" false false 4 "x" true = (⟨[usageMessage], []⟩, .ret false) :=
  ⟨by decide,
    (stdout_message_severity_guard (fun _ => none) (fun _ _ => none)
      ⟨"", "", "", "", "", "", ""⟩ "hi" "INFO" false 4 "x" true (by decide) rfl).2⟩

/-- C5, counterexample: when printing to stdout raises (here every print
raises `"E"`), the exception escapes `stdout_message`: the `try` print fails,
and the `except` handler's own report print fails too, so the second
exception propagates to the caller instead of a `False` return. -/
theorem stdout_message_exception_propagates :
    (stdout_message (fun _ => some "E") (fun _ _ => none) ⟨"", "", "", "", "", "", ""⟩
      "hi" "INFO" false false 4 "" true).2 = .exn "E" := by
  decide

/-- C5, amended: provided every print to stdout succeeds, `stdout_message`
never lets an exception propagate — it always returns a boolean — and an
error raised inside the guarded block (the logging call) is caught, reported
to stdout by the handler, and turned into a `False` return. -/
theorem stdout_message_no_raise_when_print_ok (printFail : String → Option String)
    (logFail : LogLevel → String → Option String) (colors : Colors)
    (message pfx0 : String) (quiet multiline : Bool) (indent : Int)
    (severity : String) (logging : Bool)
    (hp : ∀ s, printFail s = none) :
    (∃ b : Bool, (stdout_message printFail logFail colors message pfx0 quiet
        multiline indent severity logging).2 = .ret b) ∧
    (∀ err, quiet = false → severity = "" → logging = true →
      logFail (logLevelFor (pyUpper pfx0)) message = some err →
      stdout_message printFail logFail colors message pfx0 quiet multiline indent
          severity logging =
        (⟨[renderLine colors message (pyUpper pfx0) multiline indent severity,
            excReport err], [(logLevelFor (pyUpper pfx0), message)]⟩, .ret false)) := by
  constructor
  · by_cases hq : quiet = true
    · exact ⟨true, by simp [stdout_message, hq]⟩
    · by_cases hsev : (!(pyUpper severity).isEmpty &&
          !pyInTup (PyVal.str (pyUpper pfx0)) statusTuplePair) = true
      · exact ⟨false, by simp [stdout_message, hq, hsev, hp]⟩
      · by_cases hl : logging = true
        · rcases hres : logFail (logLevelFor (pyUpper pfx0)) message with _ | err
          · exact ⟨true, by simp [stdout_message, hq, hsev, hp, hl, log_message_eq, hres]⟩
          · exact ⟨false, by
              simp [stdout_message, hq, hsev, hp, hl, log_message_eq, hres, excHandler]⟩
        · exact ⟨true, by simp [stdout_message, hq, hsev, hp, hl]⟩
  · intro err hq hsev hl hlog
    subst hsev
    have h0 : (pyUpper "").isEmpty = true := by decide
    simp [stdout_message, hq, h0, hp, hl, log_message_eq, hlog, excHandler]

/-- C5, witness: concrete arguments, a succeeding printer, a failing logger. -/
theorem stdout_message_no_raise_witness :
    (∀ s : String, (fun _ : String => (none : Option String)) s = none) ∧
    (∃ b : Bool, (stdout_message (fun _ => none) (fun _ _ => some "boom")
      ⟨"", "", "", "", "", "", ""⟩ "hi" "INFO" false false 4 "" true).2 = .ret b) :=
  ⟨fun _ => rfl,
    (stdout_message_no_raise_when_print_ok (fun _ => none) (fun _ _ => some "boom")
      ⟨"", "", "", "", "", "", ""⟩ "hi" "INFO" false false 4 "" true (fun _ => rfl)).1⟩

/-- C7: forwarding to the logger is controlled by the `logging` flag: with
`logging=False` the logger is never invoked on any path, and whenever the
message is printed (`quiet=False`, empty severity, the print succeeds) with
`logging=True`, the message text is forwarded to the logger exactly once, at
the level `log_message` routes the prefix to. -/
theorem stdout_message_logging_flag (printFail : String → Option String)
    (logFail : LogLevel → String → Option String) (colors : Colors)
    (message pfx0 : String) (quiet multiline : Bool) (indent : Int)
    (severity : String) (logging : Bool) :
    (logging = false →
      (stdout_message printFail logFail colors message pfx0 quiet multiline indent
        severity logging).1.logs = []) ∧
    (quiet = false → severity = "" → logging = true →
      printFail (renderLine colors message (pyUpper pfx0) multiline indent severity) =
        none →
      (stdout_message printFail logFail colors message pfx0 quiet multiline indent
        severity logging).1.logs = [(logLevelFor (pyUpper pfx0), message)]) := by
  constructor
  · intro hl
    by_cases hq : quiet = true
    · simp [stdout_message, hq]
    · by_cases hsev : (!(pyUpper severity).isEmpty &&
          !pyInTup (PyVal.str (pyUpper pfx0)) statusTuplePair) = true
      · rcases hpu : printFail usageMessage with _ | err <;>
          simp [stdout_message, hq, hsev, hpu]
      · rcases hpp : printFail
            (renderLine colors message (pyUpper pfx0) multiline indent severity)
            with _ | err
        · simp [stdout_message, hq, hsev, hpp, hl]
        · rcases hpr : printFail (excReport err) with _ | err2 <;>
            simp [stdout_message, hq, hsev, hpp, hl, excHandler, hpr]
  · intro hq hsev hl hpp
    subst hsev
    have h0 : (pyUpper "").isEmpty = true := by decide
    rcases hlf : logFail (logLevelFor (pyUpper pfx0)) message with _ | err
    · simp [stdout_message, hq, h0, hpp, hl, log_message_eq, hlf]
    · rcases hpr : printFail (excReport err) with _ | err2 <;>
        simp [stdout_message, hq, h0, hpp, hl, log_message_eq, hlf, excHandler, hpr]

/-- C7, witness: a critical prefix, succeeding printer and logger. -/
theorem stdout_message_logging_flag_witness :
    (stdout_message (fun _ => none) (fun _ _ => none) ⟨"", "", "", "", "", "", ""⟩
      "hi" "ERROR" false false 4 "" true).1.logs =
      [(logLevelFor (pyUpper "ERROR"), "hi")] :=
  (stdout_message_logging_flag (fun _ => none) (fun _ _ => none)
    ⟨"", "", "", "", "", "", ""⟩ "hi" "ERROR" false false 4 "" true).2 rfl rfl rfl rfl
